import Mathlib

/-!
Verification development for the asset-pricing linear factor model estimators of
`src/linearmodels/asset_pricing/model.py` (classes `TradedFactorModel`,
`LinearFactorModel`, `LinearFactorModelGMM`).

The numpy arrays of the source are embedded as rational-valued matrices with
explicit dimensions and a total entry function; every numpy operation the source
uses (`np.c_`, `@`, `np.tile`, column-major `ravel`, `np.reshape`, `np.kron`,
fancy indexing, broadcasting of a 1-row operand, `mean(0)`, elementwise `*` and
`**2`) is embedded as its own definition.  `numpy.linalg.pinv`,
`numpy.linalg.lstsq` and `numpy.linalg.eigh` are external library functions,
so the estimators are parameterised over them; likewise the floating-point
expression for the automatic kernel bandwidth and `1.0/np.sqrt` are taken as
parameters.  Fallible code (a Python `raise`) is embedded with `Except`.
-/

namespace AssetPricing

/-- A dense rational matrix: the shape of a numpy `ndarray` plus a total entry
function (entries outside the `rows × cols` rectangle are irrelevant junk). -/
structure Mat where
  rows : Nat
  cols : Nat
  entry : Nat → Nat → ℚ

/-- `sumTo n g = g 0 + g 1 + ... + g (n-1)`. -/
def sumTo : Nat → (Nat → ℚ) → ℚ
  | 0, _ => 0
  | n + 1, g => sumTo n g + g n

/-- Matrix literal built from a row-major list of rows (entries default to 0). -/
def matOfList (L : List (List ℚ)) : Mat :=
  ⟨L.length, (L.headD []).length, fun i j => ((L.getD i []).getD j 0)⟩

/-- `np.ones((r, c))`. -/
def matOnes (r c : Nat) : Mat := ⟨r, c, fun _ _ => 1⟩

/-- `np.eye n`. -/
def matEye (n : Nat) : Mat := ⟨n, n, fun i j => if i = j then 1 else 0⟩

/-- The all-zero matrix. -/
def matZero (r c : Nat) : Mat := ⟨r, c, fun _ _ => 0⟩

/-- `A.T`. -/
def Mat.transpose (A : Mat) : Mat := ⟨A.cols, A.rows, fun i j => A.entry j i⟩

/-- `A @ B`. -/
def matMul (A B : Mat) : Mat :=
  ⟨A.rows, B.cols, fun i j => sumTo A.cols (fun k => A.entry i k * B.entry k j)⟩

/-- `A + B` (same shape). -/
def matAdd (A B : Mat) : Mat :=
  ⟨A.rows, A.cols, fun i j => A.entry i j + B.entry i j⟩

/-- Elementwise `A * B` (same shape; also `A ** 2` as `matEmul A A`). -/
def matEmul (A B : Mat) : Mat :=
  ⟨A.rows, A.cols, fun i j => A.entry i j * B.entry i j⟩

/-- `A / n` for a Python integer `n` (true division, as numpy does). -/
def matDivNat (A : Mat) (n : Nat) : Mat :=
  ⟨A.rows, A.cols, fun i j => A.entry i j / (n : ℚ)⟩

/-- `A / q` for a scalar `q`. -/
def matDivQ (A : Mat) (q : ℚ) : Mat :=
  ⟨A.rows, A.cols, fun i j => A.entry i j / q⟩

/-- `c * A` for a scalar `c`. -/
def matScale (c : ℚ) (A : Mat) : Mat :=
  ⟨A.rows, A.cols, fun i j => c * A.entry i j⟩

/-- numpy broadcast dimension: a length-1 axis stretches to the other length. -/
def bdim (a b : Nat) : Nat := if a = 1 then b else a

/-- numpy broadcast index: an index into an axis of length `d` (0 if stretched). -/
def bidx (i d : Nat) : Nat := if d = 1 then 0 else i

/-- `A - B` with numpy broadcasting of length-1 axes (the source subtracts a
1-row mean from a full matrix, e.g. `f - f.mean(0)`, `p - p.mean(0)[None, :]`). -/
def matBsub (A B : Mat) : Mat :=
  ⟨bdim A.rows B.rows, bdim A.cols B.cols, fun i j =>
    A.entry (bidx i A.rows) (bidx j A.cols) - B.entry (bidx i B.rows) (bidx j B.cols)⟩

/-- `A.mean(0)` as a 1-row matrix of column means. -/
def mean0 (A : Mat) : Mat :=
  ⟨1, A.cols, fun _ j => sumTo A.rows (fun t => A.entry t j) / (A.rows : ℚ)⟩

/-- `np.c_[A, B]`: horizontal concatenation. -/
def matHcat (A B : Mat) : Mat :=
  ⟨A.rows, A.cols + B.cols, fun i j => if j < A.cols then A.entry i j else B.entry i (j - A.cols)⟩

/-- `np.tile(A, (r, c))`. -/
def matTile (A : Mat) (r c : Nat) : Mat :=
  ⟨r * A.rows, c * A.cols, fun i j => A.entry (i % A.rows) (j % A.cols)⟩

/-- Column-major (Fortran-order) `A.ravel()`, as a flat index function. -/
def ravelF (A : Mat) : Nat → ℚ := fun m => A.entry (m % A.rows) (m / A.rows)

/-- Column-major (Fortran-order) `np.reshape(flat, (r, c))`: fill from a flat vector. -/
def reshapeF (flat : Nat → ℚ) (r c : Nat) : Mat :=
  ⟨r, c, fun i j => flat (j * r + i)⟩

/-- `np.reshape(A, (r, c))` (default C order): row-major flatten then row-major fill. -/
def reshapeC (A : Mat) (r c : Nat) : Mat :=
  ⟨r, c, fun i j => A.entry ((i * c + j) / A.cols) ((i * c + j) % A.cols)⟩

/-- `A[start:start+len, :]` row slicing (`b[:1]` and `b[1:]` in the source). -/
def rowSlice (A : Mat) (start len : Nat) : Mat :=
  ⟨len, A.cols, fun i j => A.entry (start + i) j⟩

/-- `A[:r, :c]`: leading principal block. -/
def subMat (A : Mat) (r c : Nat) : Mat := ⟨r, c, fun i j => A.entry i j⟩

/-- `base[:blk.rows, :blk.cols] = blk` (the slice assignment on line 81). -/
def setBlock (base blk : Mat) : Mat :=
  ⟨base.rows, base.cols, fun i j =>
    if i < blk.rows then (if j < blk.cols then blk.entry i j else base.entry i j)
    else base.entry i j⟩

/-- `np.kron(A, B)`. -/
def matKron (A B : Mat) : Mat :=
  ⟨A.rows * B.rows, A.cols * B.cols, fun i j =>
    A.entry (i / B.rows) (j / B.cols) * B.entry (i % B.rows) (j % B.cols)⟩

/-- `np.diag(v)` for a vector of diagonal values. -/
def diagMat (n : Nat) (v : Nat → ℚ) : Mat :=
  ⟨n, n, fun i j => if i = j then v i else 0⟩

/-- `A[order][:, order]`: symmetric fancy-index reordering by a permutation of
`{0, ..., n-1}` (line 109). -/
def reindexSym (A : Mat) (ord : Nat → Nat) (n : Nat) : Mat :=
  ⟨n, n, fun i j => A.entry (ord i) (ord j)⟩

/-- `A.sum()`: the sum of all entries of the `rows × cols` rectangle. -/
def sumAll (A : Mat) : ℚ :=
  sumTo A.rows (fun i => sumTo A.cols (fun j => A.entry i j))

/-- `Except` success test. -/
def exceptOk {ε α : Type} : Except ε α → Bool
  | .ok _ => true
  | .error _ => false

/-- `Except` value extraction with a default. -/
def exceptGetD {ε α : Type} : Except ε α → α → α
  | .ok a, _ => a
  | .error _, d => d

/-- The Python exceptions the embedded code can raise: `ValueError` (line 99),
`KeyError` (dict lookup `KERNEL_LOOKUP[kernel]`, line 95), `TypeError`
(unexpected keyword argument in a call, line 197) and `NotImplementedError`
(line 200). -/
inductive PyErr where
  | valueError (msg : String)
  | keyError (key : String)
  | typeError (msg : String)
  | notImplementedError
  deriving DecidableEq

/-- The `**cov_config` keyword arguments read by `fit` (lines 92-93): the
optional `kernel` name and the optional `bandwidth`. -/
structure CovConfig where
  kernel : Option String
  bandwidth : Option Nat

/-- Modelled from the spec: `WaldTestStatistic` from `linearmodels.utility`
(not under src/).  It records the statistic value, the null-hypothesis label,
the degrees of freedom and a display name; its p-value is derivable from a
chi-squared survival function and has no closed rational form, so it is not
modelled. -/
structure WaldTestStatistic where
  stat : ℚ
  null : String
  df : Nat
  name : String

/-- Modelled from the spec: the `IVData` wrapper from `linearmodels.iv.data`
(not under src/): the raw numeric array plus the ordered column labels. -/
structure IVData where
  ndarray : Mat
  cols : List String

/-- Modelled from the spec: the Results record (`TradedFactorModelResults`
over an `AttrDict`, both not under src/), one field per key packed by the
source at lines 129-134; the `model` back-reference is represented by the
model name string. -/
structure TradedFactorModelResults where
  params : Mat
  cov : Mat
  betas : Mat
  rp : Mat
  rp_cov : Mat
  alphas : Mat
  alpha_vcv : Mat
  jstat : WaldTestStatistic
  rsquared : ℚ
  total_ss : ℚ
  residual_ss : ℚ
  param_names : List String
  portfolio_names : List String
  factor_names : List String
  name : String
  cov_type : String
  nobs : Nat

/-- The `TradedFactorModel` instance data set up by `__init__` (lines 38-41). -/
structure TradedFactorModel where
  portfolios : IVData
  factors : IVData

/-- The `LinearFactorModel` instance data (lines 157-159): the same inputs
plus the optional residual covariance `sigma`. -/
structure LinearFactorModel where
  portfolios : IVData
  factors : IVData
  sigma : Option Mat

/-- Modelled from the spec: the bartlett kernel weights produced by
`KERNEL_LOOKUP` applied to the name "bartlett" and the bandwidth in `linearmodels.iv.covariance`
(not under src/): `w(l) = 1 - l/(bw+1)` for lags `l = 0, ..., bw`, so
`w(0) = 1`, symmetric in the lag. -/
def bartlettWeight (bw : Nat) : Nat → ℚ := fun l => 1 - (l : ℚ) / ((bw : ℚ) + 1)

/-- Modelled from the spec: the `KERNEL_LOOKUP` dictionary of
`linearmodels.iv.covariance` (not under src/), mapping a kernel name to its
weight function; an unrecognized name fails (dict `KeyError`, called
`UnknownKernelError` by the spec).  Only the bartlett weights are given a formula by the
spec, and "bartlett" is the default `fit` uses, so the modelled lookup
covers that name. -/
def kernelLookup (kernel : String) : Except PyErr (Nat → Nat → ℚ) :=
  if kernel = "bartlett" then .ok bartlettWeight else .error (.keyError kernel)

/-- Lag-`l` moment product `Γ_l(a, b) = Σ_{t=l}^{T-1} M[t,a] * M[t-l,b]`
(so `Γ_0 = Mᵀ M`). -/
def lagGamma (M : Mat) (l : Nat) : Mat :=
  ⟨M.cols, M.cols, fun a b => sumTo (M.rows - l) (fun t => M.entry (t + l) a * M.entry t b)⟩

/-- The weighted tail of weighted lag products Γ_l plus their transposes of the kernel sum. -/
def lagTail (M : Mat) (w : Nat → ℚ) : Nat → Mat
  | 0 => matZero M.cols M.cols
  | l + 1 => matAdd (lagTail M w l)
      (matScale (w (l + 1)) (matAdd (lagGamma M (l + 1)) (lagGamma M (l + 1)).transpose))

/-- Modelled from the spec: `_cov_kernel` of `linearmodels.iv.covariance`
(not under src/): the long-run covariance
`Σ = (1/T) * Σ_{l=-bw}^{bw} w(|l|) * Γ_l` with symmetric weights, `w(0) = 1`,
written as Γ_0 plus the weighted lag products and their transposes, all over T. -/
def covKernel (M : Mat) (w : Nat → ℚ) (bw : Nat) : Mat :=
  matDivNat (matAdd (lagGamma M 0) (lagTail M w bw)) M.rows

/-- Line 72: `fc = np.c_[np.ones((nobs, 1)), f]`. -/
def fcOf (model : TradedFactorModel) : Mat :=
  matHcat (matOnes model.factors.ndarray.rows 1) model.factors.ndarray

/-- Line 73: `rp = f.mean(0)[:, None]` (a `nfactor × 1` column). -/
def rpOf (model : TradedFactorModel) : Mat := (mean0 model.factors.ndarray).transpose

/-- Line 74: `fe = f - f.mean(0)` (broadcast subtraction). -/
def feOf (model : TradedFactorModel) : Mat :=
  matBsub model.factors.ndarray (mean0 model.factors.ndarray)

/-- Line 75: `b = pinv(fc) @ p`, with `pinv` the external `numpy.linalg.pinv`
passed as a parameter. -/
def bOf (model : TradedFactorModel) (pinv : Mat → Mat) : Mat :=
  matMul (pinv (fcOf model)) model.portfolios.ndarray

/-- Line 76: `eps = p - fc @ b`. -/
def epsOf (model : TradedFactorModel) (pinv : Mat → Mat) : Mat :=
  matBsub model.portfolios.ndarray (matMul (fcOf model) (bOf model pinv))

/-- Line 77: `alphas = b[:1].T` (a `nportfolio × 1` column of intercepts). -/
def alphasOf (model : TradedFactorModel) (pinv : Mat → Mat) : Mat :=
  (rowSlice (bOf model pinv) 0 1).transpose

/-- Lines 80-81: `xpxi = np.eye(nloading + nfactor)` with its leading
`nloading × nloading` block set to
`np.kron(np.eye(nportfolio), pinv(fc.T @ fc / nobs))`. -/
def xpxiOf (model : TradedFactorModel) (pinv : Mat → Mat) : Mat :=
  let nobs := model.factors.ndarray.rows
  let nfactor := model.factors.ndarray.cols
  let nportfolio := model.portfolios.ndarray.cols
  let nloading := (nfactor + 1) * nportfolio
  let fc := fcOf model
  setBlock (matEye (nloading + nfactor))
    (matKron (matEye nportfolio) (pinv (matDivNat (matMul fc.transpose fc) nobs)))

/-- Lines 82-87: the stacked moment matrix
`xe = np.c_[f_rep * eps_rep, fe]` built with `np.tile`, a column-major
`ravel` and a column-major `reshape`. -/
def xeOf (model : TradedFactorModel) (pinv : Mat → Mat) : Mat :=
  let nobs := model.factors.ndarray.rows
  let nfactor := model.factors.ndarray.cols
  let nportfolio := model.portfolios.ndarray.cols
  let fc := fcOf model
  let eps := epsOf model pinv
  let f_rep := matTile fc 1 nportfolio
  let eps_rep := matTile eps (nfactor + 1) 1
  let eps_flat := ravelF eps_rep
  let eps_rep2 := reshapeF eps_flat nobs ((nfactor + 1) * nportfolio)
  matHcat (matEmul f_rep eps_rep2) (feOf model)

/-- Lines 88-99: the covariance branch on `cov_type`, producing the pair
`(xeex, rp_cov)` before the degrees-of-freedom scaling; any other `cov_type`
raises the `ValueError` whose message is the text `Unknown cov_type: ` followed by the given `cov_type` (line 99).  `autoBW` is a
parameter standing for the floating-point default bandwidth
`int(np.ceil(4 * (nobs / 100) ** (2 / 9)))` of line 94. -/
def covBranch (covType : String) (cfg : CovConfig) (autoBW : Nat → Nat)
    (xe fe : Mat) (nobs : Nat) : Except PyErr (Mat × Mat) :=
  if covType = "robust" ∨ covType = "heteroskedastic" then
    .ok (matDivNat (matMul xe.transpose xe) nobs, matDivNat (matMul fe.transpose fe) nobs)
  else if covType = "kernel" then
    let kernel := cfg.kernel.getD "bartlett"
    let bw := cfg.bandwidth.getD (autoBW nobs)
    match kernelLookup kernel with
    | .error e => .error e
    | .ok w => .ok (covKernel xe (w bw) bw, covKernel fe (w bw) bw)
  else
    .error (.valueError ("Unknown cov_type: " ++ covType))

/-- Lines 107-108: the reordering permutation
`np.reshape(np.arange((nfactor + 1) * nportfolio), (nportfolio, nfactor + 1)).T.ravel()`,
rendered step by step: C-order reshape of `arange`, transpose, C-order ravel. -/
def orderFun (nportfolio nfactor : Nat) : Nat → Nat :=
  fun m =>
    let g : Nat → Nat → Nat := fun i j => i * (nfactor + 1) + j
    let gT : Nat → Nat → Nat := fun j i => g i j
    gT (m / nportfolio) (m % nportfolio)

/-- Lines 100-135: everything after the covariance branch, packing the
Results record from the pair `(xeex, rp_cov)` returned by the branch. -/
def assembleTraded (model : TradedFactorModel) (pinv : Mat → Mat)
    (covType : String) (debiased : Bool) (pr : Mat × Mat) : TradedFactorModelResults :=
  let p := model.portfolios.ndarray
  let f := model.factors.ndarray
  let nportfolio := p.cols
  let nobs := f.rows
  let nfactor := f.cols
  let fc := fcOf model
  let b := bOf model pinv
  let eps := epsOf model pinv
  let alphas := alphasOf model pinv
  let nloading := (nfactor + 1) * nportfolio
  -- line 100: `debiased = int(bool(debiased))`; line 101: `df = fc.shape[1]`
  let dbi : ℚ := if debiased then 1 else 0
  let df : ℚ := (fc.cols : ℚ)
  -- line 102: `full_vcv = xpxi @ xeex @ xpxi / (nobs - debiased * df)`
  let full_vcv := matDivQ (matMul (matMul (xpxiOf model pinv) pr.1) (xpxiOf model pinv))
      ((nobs : ℚ) - dbi * df)
  -- line 103: `vcv = full_vcv[:nloading, :nloading]`
  let vcv0 := subMat full_vcv nloading nloading
  -- line 104: `rp_cov = rp_cov / (nobs - debiased)`
  let rp_cov := matDivQ pr.2 ((nobs : ℚ) - dbi)
  -- line 109: `vcv = vcv[order][:, order]`
  let vcv1 := reindexSym vcv0 (orderFun nportfolio nfactor) nloading
  -- line 112: `alpha_vcv = vcv[:nportfolio, :nportfolio]`
  let alpha_vcv := subMat vcv1 nportfolio nportfolio
  -- line 113: `stat = float(alphas.T @ pinv(alpha_vcv) @ alphas)`
  let stat := (matMul (matMul alphas.transpose (pinv alpha_vcv)) alphas).entry 0 0
  -- line 114
  let jstat : WaldTestStatistic := ⟨stat, "All alphas are 0", nportfolio, "J-statistic"⟩
  -- lines 115-116
  let params := b.transpose
  let betas := (rowSlice b 1 (b.rows - 1)).transpose
  -- lines 117-120
  let residual_ss := sumAll (matEmul eps eps)
  let e := matBsub p (mean0 p)
  let total_ss := sumAll (matEmul e e)
  let r2 := 1 - residual_ss / total_ss
  -- lines 121-127
  let param_names :=
    (model.portfolios.cols.map (fun pn =>
      ("alpha-" ++ pn) :: model.factors.cols.map (fun fn => "beta-" ++ pn ++ "-" ++ fn))).flatten
    ++ model.factors.cols.map (fun fn => "lambda-" ++ fn)
  -- lines 129-134 (field order: params, cov, betas, rp, rp_cov, alphas,
  -- alpha_vcv, jstat, rsquared, total_ss, residual_ss, param_names,
  -- portfolio_names, factor_names, name, cov_type, nobs)
  ⟨params, full_vcv, betas, rpOf model, rp_cov, alphas, alpha_vcv, jstat, r2,
    total_ss, residual_ss, param_names, model.portfolios.cols, model.factors.cols,
    "TradedFactorModel", covType, nobs⟩

/-- `TradedFactorModel.fit(cov_type, debiased, **cov_config)` (lines 43-136). -/
def TradedFactorModel.fit (model : TradedFactorModel) (pinv : Mat → Mat)
    (autoBW : Nat → Nat) (covType : String) (debiased : Bool) (cfg : CovConfig) :
    Except PyErr TradedFactorModelResults :=
  match covBranch covType cfg autoBW (xeOf model pinv) (feOf model)
      model.factors.ndarray.rows with
  | .error e => .error e
  | .ok pr => .ok (assembleTraded model pinv covType debiased pr)

/-- Lines 173-177: the GLS weighting matrix `sigma_m12`.  `eigh` stands for the
external `numpy.linalg.eigh` (returning the eigenvalue vector and the
eigenvector matrix) and `invSqrt` for the floating-point map
`v ↦ 1.0 / np.sqrt(v)`; when `sigma` is absent the weighting is
`np.eye(nportfolio)`.  No branch checks the sign of the eigenvalues. -/
def sigmaM12Of (eigh : Mat → ((Nat → ℚ) × Mat)) (invSqrt : ℚ → ℚ)
    (sigma : Option Mat) (nportfolio : Nat) : Mat :=
  match sigma with
  | some s =>
    let ve := eigh s
    matMul (matMul ve.2 (diagMat s.rows (fun i => invSqrt (ve.1 i)))) ve.2.transpose
  | none => matEye nportfolio

/-- `LinearFactorModel.fit(cov_type, debiased, **cov_config)` (lines 161-190).
`lstsq` stands for the external `numpy.linalg.lstsq` (of which the source
keeps element `[0]`, the solution).  The body computes the two-pass premia
`lam`, the pricing errors, their mean `alpha` and the moment covariance
`xeex`, and then line 190 returns the bare pair `(lam, alpha)`: `xeex` is
discarded and no Results record, covariance or Wald statistic is built. -/
def LinearFactorModel.fit (model : LinearFactorModel) (lstsq : Mat → Mat → Mat)
    (eigh : Mat → ((Nat → ℚ) × Mat)) (invSqrt : ℚ → ℚ)
    (covType : String) (debiased : Bool) (cfg : CovConfig) :
    Except PyErr (Mat × Mat) :=
  let f := model.factors.ndarray
  let nobs := f.rows
  let nfactor := f.cols
  let p := model.portfolios.ndarray
  let nportfolio := p.cols
  -- lines 167-171: first pass
  let fc := matHcat (matOnes nobs 1) f
  let b := lstsq fc p
  let eps := matBsub p (matMul fc b)
  let bc := rowSlice b 1 (b.rows - 1)
  -- lines 172-179: second pass
  let sigma_m12 := sigmaM12Of eigh invSqrt model.sigma nportfolio
  let lam := (lstsq (matMul sigma_m12 bc.transpose)
              (matMul sigma_m12 (mean0 p).transpose)).transpose
  -- lines 181-188: moment scores (computed and then discarded)
  let f_rep := matTile fc 1 nportfolio
  let eps_rep := matTile eps (nfactor + 1) 1
  let eps_rep2 := (reshapeC eps_rep.transpose (nportfolio * (nfactor + 1)) nobs).transpose
  let expected := matMul lam bc
  let pricing_errors := matBsub p expected
  let alpha := mean0 pricing_errors
  let scores := matHcat (matEmul f_rep eps_rep2) (matMul pricing_errors bc.transpose)
  let xeex := matDivNat (matMul scores.transpose scores) nobs
  -- line 190: `return lam, alpha`
  .ok (lam, alpha)

/-- Python keyword-argument binding for `TradedFactorModel.__init__(self,
portfolios, factors)` (line 38): the parameter list declares no keyword-only
or extra parameters, so a call passing any unexpected keyword raises
`TypeError` before the body runs.  `extraKwargs` lists the keyword names of
the call that match no declared parameter. -/
def tradedFactorModelInit (portfolios factors : IVData) (extraKwargs : List String) :
    Except PyErr TradedFactorModel :=
  match extraKwargs with
  | [] => .ok ⟨portfolios, factors⟩
  | k :: _ => .error (.typeError ("__init__() got an unexpected keyword argument " ++ k))

/-- `LinearFactorModelGMM.__init__(self, factors, portfolios, *, constant=True)`
(lines 196-197): it forwards to the base constructor as
`super().__init__(factors, portfolios, constant=constant)`, passing the
keyword `constant` that `TradedFactorModel.__init__` does not declare (and
passing `factors` into the `portfolios` slot and vice versa). -/
def linearFactorModelGMMInit (factors portfolios : IVData) (constant : Bool) :
    Except PyErr TradedFactorModel :=
  tradedFactorModelInit factors portfolios ["constant"]

/-- `LinearFactorModelGMM.fit(self)` (lines 199-200): unconditionally
`raise NotImplementedError()`. -/
def linearFactorModelGMMFit : Except PyErr TradedFactorModelResults :=
  .error .notImplementedError

/-! Concrete evaluation inputs (T = 2 observations, K = 1 factor,
N = 1 portfolio) used to instantiate the theorems below. -/

/-- A placeholder results record (default for `exceptGetD`). -/
def dummyResults : TradedFactorModelResults :=
  ⟨matZero 0 0, matZero 0 0, matZero 0 0, matZero 0 0, matZero 0 0, matZero 0 0,
    matZero 0 0, ⟨0, "", 0, ""⟩, 0, 0, 0, [], [], [], "", "", 0⟩

/-- A concrete stand-in for `numpy.linalg.pinv` (the identity map on matrices;
the theorems hold for every `pinv`, so any concrete function instantiates
them). -/
def wPinv : Mat → Mat := fun A => A

/-- A concrete stand-in for the automatic-bandwidth computation. -/
def wABW : Nat → Nat := fun _ => 0

/-- An empty `**cov_config`. -/
def wCfg : CovConfig := ⟨none, none⟩

/-- Concrete model: portfolios `[[1], [3]]`, factors `[[2], [4]]`. -/
def wModel : TradedFactorModel :=
  ⟨⟨matOfList [[1], [3]], ["port0"]⟩, ⟨matOfList [[2], [4]], ["fact0"]⟩⟩

/-- The record returned by the concrete robust fit. -/
def wRes : TradedFactorModelResults :=
  exceptGetD (TradedFactorModel.fit wModel wPinv wABW "robust" true wCfg) dummyResults

/-- The record returned by the concrete kernel fit with bartlett weights and
bandwidth 0. -/
def wResK : TradedFactorModelResults :=
  exceptGetD (TradedFactorModel.fit wModel wPinv wABW "kernel" true ⟨some "bartlett", some 0⟩)
    dummyResults

/-- Concrete stand-in for `numpy.linalg.lstsq`: the exact solver for the
concrete first-pass system of `wLinModel` (`fc = [[1, 2], [1, 4]]`, whose
inverse is `[[2, -1], [-1/2, 1/2]]`), and the identity solve for the 1×1
second-pass system. -/
def wLstsq : Mat → Mat → Mat := fun A B =>
  if A.rows = 2 then matMul (matOfList [[2, -1], [-1/2, 1/2]]) B else B

/-- Concrete stand-in for `numpy.linalg.eigh` (unused when `sigma` is absent). -/
def wEigh : Mat → ((Nat → ℚ) × Mat) := fun _ => (fun _ => 0, matEye 1)

/-- Concrete stand-in for `v ↦ 1.0 / np.sqrt(v)`. -/
def wInvSqrt : ℚ → ℚ := fun _ => 0

/-- Concrete two-pass model without `sigma`: same matrices as `wModel`. -/
def wLinModel : LinearFactorModel :=
  ⟨⟨matOfList [[1], [3]], ["port0"]⟩, ⟨matOfList [[2], [4]], ["fact0"]⟩, none⟩

/-- A 1×1 `sigma` whose unique eigenvalue is `-1` (not positive definite). -/
def sigmaNeg : Mat := matOfList [[-1]]

/-- The exact eigendecomposition of `sigmaNeg`: eigenvalue `-1`, eigenvector
matrix the identity (so `vecs @ diag(vals) @ vecs.T = sigmaNeg`). -/
def wEighNeg : Mat → ((Nat → ℚ) × Mat) := fun _ => (fun _ => -1, matEye 1)

/-- Concrete two-pass model carrying the non-positive-definite `sigmaNeg`. -/
def wLinModelNeg : LinearFactorModel :=
  ⟨⟨matOfList [[1], [3]], ["port0"]⟩, ⟨matOfList [[2], [4]], ["fact0"]⟩, some sigmaNeg⟩

/-! Helper lemmas. -/

theorem sumTo_congr {n : Nat} {f g : Nat → ℚ} (h : ∀ i, i < n → f i = g i) :
    sumTo n f = sumTo n g := by
  induction n with
  | zero => rfl
  | succ n ih =>
    have hn := h n (Nat.lt_succ_self n)
    have ih' := ih (fun i hi => h i (Nat.lt_succ_of_lt hi))
    simp [sumTo, ih', hn]

theorem sumTo_nonneg {n : Nat} {g : Nat → ℚ} (h : ∀ i, i < n → 0 ≤ g i) :
    0 ≤ sumTo n g := by
  induction n with
  | zero => simp [sumTo]
  | succ n ih =>
    have hn := h n (Nat.lt_succ_self n)
    have ih' := ih (fun i hi => h i (Nat.lt_succ_of_lt hi))
    simpa [sumTo] using add_nonneg ih' hn

theorem sumTo_eq_zero_iff {n : Nat} {g : Nat → ℚ} (h : ∀ i, i < n → 0 ≤ g i) :
    sumTo n g = 0 ↔ ∀ i, i < n → g i = 0 := by
  induction n with
  | zero => simp [sumTo]
  | succ n ih =>
    have hn := h n (Nat.lt_succ_self n)
    have htail : ∀ i, i < n → 0 ≤ g i := fun i hi => h i (Nat.lt_succ_of_lt hi)
    have ih' := ih htail
    constructor
    · intro h0 i hi
      have hs : 0 ≤ sumTo n g := sumTo_nonneg htail
      have hsum0 : sumTo n g = 0 ∧ g n = 0 := by
        constructor
        · nlinarith [show sumTo n g + g n = 0 from h0]
        · nlinarith [show sumTo n g + g n = 0 from h0]
      rcases Nat.lt_succ_iff_lt_or_eq.mp hi with hlt | heq
      · exact (ih'.mp hsum0.1) i hlt
      · simpa [heq] using hsum0.2
    · intro hall
      have h1 : sumTo n g = 0 := ih'.mpr (fun i hi => hall i (Nat.lt_succ_of_lt hi))
      have h2 : g n = 0 := hall n (Nat.lt_succ_self n)
      simp [sumTo, h1, h2]

theorem sumTo_const {n : Nat} {g : Nat → ℚ} {c : ℚ} (h : ∀ i, i < n → g i = c) :
    sumTo n g = (n : ℚ) * c := by
  induction n with
  | zero => simp [sumTo]
  | succ n ih =>
    have hn := h n (Nat.lt_succ_self n)
    have ih' := ih (fun i hi => h i (Nat.lt_succ_of_lt hi))
    push_cast
    simp [sumTo, ih', hn]
    ring

theorem matExt {A B : Mat} (hr : A.rows = B.rows) (hc : A.cols = B.cols)
    (he : A.entry = B.entry) : A = B := by
  cases A; cases B; simp_all

theorem sumAll_sq_nonneg (A : Mat) : 0 ≤ sumAll (matEmul A A) := by
  refine sumTo_nonneg (fun i _ => ?_)
  exact sumTo_nonneg (fun j _ => mul_self_nonneg _)

theorem sumAll_sq_eq_zero_iff (A : Mat) :
    sumAll (matEmul A A) = 0 ↔ ∀ i, i < A.rows → ∀ j, j < A.cols → A.entry i j = 0 := by
  unfold sumAll matEmul
  rw [sumTo_eq_zero_iff (fun i _ => sumTo_nonneg (fun j _ => mul_self_nonneg _))]
  constructor
  · intro h i hi j hj
    have := (sumTo_eq_zero_iff (fun j _ => mul_self_nonneg (A.entry i j))).mp (h i hi) j hj
    exact mul_self_eq_zero.mp this
  · intro h i hi
    exact (sumTo_eq_zero_iff (fun j _ => mul_self_nonneg (A.entry i j))).mpr
      (fun j hj => mul_self_eq_zero.mpr (h i hi j hj))

theorem bdim_right_one (a : Nat) : bdim a 1 = a := by
  unfold bdim; split <;> simp_all

theorem bdim_self (a : Nat) : bdim a a = a := by
  unfold bdim; split <;> simp_all

theorem bidx_of_lt {i d : Nat} (h : i < d) : bidx i d = i := by
  unfold bidx
  split
  · omega
  · rfl

theorem covKernel_zero (M : Mat) (w : Nat → ℚ) :
    covKernel M w 0 = matDivNat (matMul M.transpose M) M.rows := by
  refine matExt rfl rfl ?_
  funext a b
  show ((lagGamma M 0).entry a b + (0 : ℚ)) / ((M.rows : Nat) : ℚ)
      = (matMul M.transpose M).entry a b / ((M.rows : Nat) : ℚ)
  rw [add_zero]
  rfl

theorem xeOf_rows (model : TradedFactorModel) (pinv : Mat → Mat) :
    (xeOf model pinv).rows = model.factors.ndarray.rows := by
  simp [xeOf, matHcat, matEmul, matTile, fcOf, matOnes]

theorem feOf_rows (model : TradedFactorModel) :
    (feOf model).rows = model.factors.ndarray.rows := by
  simp [feOf, matBsub, mean0, bdim_right_one]

theorem bsub_mean_rows (P : Mat) : (matBsub P (mean0 P)).rows = P.rows :=
  bdim_right_one P.rows

theorem bsub_mean_cols (P : Mat) : (matBsub P (mean0 P)).cols = P.cols :=
  bdim_self P.cols

theorem bsub_mean_entry (P : Mat) {i j : Nat} (hi : i < P.rows) (hj : j < P.cols) :
    (matBsub P (mean0 P)).entry i j
      = P.entry i j - sumTo P.rows (fun t => P.entry t j) / (P.rows : ℚ) := by
  have h1 : bidx i P.rows = i := bidx_of_lt hi
  have h2 : bidx j P.cols = j := bidx_of_lt hj
  show P.entry (bidx i P.rows) (bidx j P.cols)
      - sumTo P.rows (fun t => P.entry t (bidx j P.cols)) / (P.rows : ℚ) = _
  rw [h1, h2]

/-! Claim theorems. -/

/-- C3: `TradedFactorModel.fit` fails fast when `cov_type` is any value other
than `"robust"`, `"heteroskedastic"` or `"kernel"`: it returns the
unsupported-covariance-type `ValueError`
raised at the point of detection, producing no result. -/
theorem traded_fit_unknown_cov_type_errors
    (model : TradedFactorModel) (pinv : Mat → Mat) (autoBW : Nat → Nat)
    (covType : String) (debiased : Bool) (cfg : CovConfig)
    (h : ¬(covType = "robust" ∨ covType = "heteroskedastic" ∨ covType = "kernel")) :
    TradedFactorModel.fit model pinv autoBW covType debiased cfg
      = .error (.valueError ("Unknown cov_type: " ++ covType)) := by
  have h1 : ¬(covType = "robust" ∨ covType = "heteroskedastic") := by tauto
  have h2 : ¬(covType = "kernel") := by tauto
  unfold TradedFactorModel.fit covBranch
  rw [if_neg h1, if_neg h2]

/-- Witness for C3 at the concrete `cov_type = "gmm"`. -/
theorem traded_fit_unknown_cov_type_errors_witness :
    (¬("gmm" = "robust" ∨ "gmm" = "heteroskedastic" ∨ "gmm" = "kernel")) ∧
    TradedFactorModel.fit wModel wPinv wABW "gmm" true wCfg
      = .error (.valueError ("Unknown cov_type: " ++ "gmm")) :=
  ⟨by decide, traded_fit_unknown_cov_type_errors wModel wPinv wABW "gmm" true wCfg (by decide)⟩

/-- C5: `LinearFactorModelGMM` is not constructible with the two-pass
constructor contract: its `__init__` forwards the keyword `constant` that the
base `TradedFactorModel.__init__` does not declare, so every construction
raises `TypeError` before any instance exists; its `fit` body, taken on its
own, unconditionally raises `NotImplementedError`. -/
theorem gmm_constructor_and_fit_fail :
    (∀ (factors portfolios : IVData) (constant : Bool),
      linearFactorModelGMMInit factors portfolios constant
        = .error (.typeError ("__init__() got an unexpected keyword argument " ++ "constant")))
    ∧ linearFactorModelGMMFit = .error .notImplementedError :=
  ⟨fun _ _ _ => rfl, rfl⟩

/-- C6: the risk-premium estimate `rp` returned by `TradedFactorModel.fit` is
exactly the `nfactor × 1` column of column-wise sample means of the factor
matrix `f`; it is the same for every portfolio matrix and every `pinv`, so no
cross-sectional regression is involved. -/
theorem traded_fit_rp_is_factor_mean
    (model : TradedFactorModel) (pinv : Mat → Mat) (autoBW : Nat → Nat)
    (covType : String) (debiased : Bool) (cfg : CovConfig)
    (res : TradedFactorModelResults)
    (h : TradedFactorModel.fit model pinv autoBW covType debiased cfg = .ok res) :
    res.rp.rows = model.factors.ndarray.cols ∧ res.rp.cols = 1 ∧
    (∀ k, res.rp.entry k 0
      = sumTo model.factors.ndarray.rows (fun t => model.factors.ndarray.entry t k)
        / (model.factors.ndarray.rows : ℚ)) := by
  unfold TradedFactorModel.fit at h
  cases hcb : covBranch covType cfg autoBW (xeOf model pinv) (feOf model)
      model.factors.ndarray.rows with
  | error e => rw [hcb] at h; cases h
  | ok pr =>
    rw [hcb] at h
    cases h
    exact ⟨rfl, rfl, fun k => rfl⟩

/-- Witness for C6 at the concrete model (`f = [[2], [4]]`, mean 3). -/
theorem traded_fit_rp_is_factor_mean_witness :
    (TradedFactorModel.fit wModel wPinv wABW "robust" true wCfg = .ok wRes) ∧
    (wRes.rp.rows = wModel.factors.ndarray.cols ∧ wRes.rp.cols = 1 ∧
    (∀ k, wRes.rp.entry k 0
      = sumTo wModel.factors.ndarray.rows (fun t => wModel.factors.ndarray.entry t k)
        / (wModel.factors.ndarray.rows : ℚ))) :=
  ⟨rfl, traded_fit_rp_is_factor_mean wModel wPinv wABW "robust" true wCfg wRes rfl⟩

/-- C2: in `TradedFactorModel.fit` the loadings block is reordered by the
fixed permutation `reshape(arange(N*(K+1)), (N, K+1)).T.ravel()` (embedded as
`orderFun`, whose closed form `m ↦ (m % N)*(K+1) + m/N` is also certified);
`alpha_vcv` is exactly the first `N × N` principal minor of the reordered
block of the full covariance; and the returned Wald statistic equals
`alphas.T @ pinv(alpha_vcv) @ alphas` with `N` degrees of freedom, testing the
null that all alphas are zero. -/
theorem traded_fit_reorder_alpha_vcv_wald
    (model : TradedFactorModel) (pinv : Mat → Mat) (autoBW : Nat → Nat)
    (covType : String) (debiased : Bool) (cfg : CovConfig)
    (res : TradedFactorModelResults)
    (h : TradedFactorModel.fit model pinv autoBW covType debiased cfg = .ok res) :
    res.alpha_vcv.rows = model.portfolios.ndarray.cols ∧
    res.alpha_vcv.cols = model.portfolios.ndarray.cols ∧
    (∀ i j, res.alpha_vcv.entry i j
      = res.cov.entry
          (orderFun model.portfolios.ndarray.cols model.factors.ndarray.cols i)
          (orderFun model.portfolios.ndarray.cols model.factors.ndarray.cols j)) ∧
    (∀ m, orderFun model.portfolios.ndarray.cols model.factors.ndarray.cols m
      = (m % model.portfolios.ndarray.cols) * (model.factors.ndarray.cols + 1)
        + m / model.portfolios.ndarray.cols) ∧
    res.jstat.stat
      = (matMul (matMul res.alphas.transpose (pinv res.alpha_vcv)) res.alphas).entry 0 0 ∧
    res.jstat.df = model.portfolios.ndarray.cols ∧
    res.jstat.null = "All alphas are 0" := by
  unfold TradedFactorModel.fit at h
  cases hcb : covBranch covType cfg autoBW (xeOf model pinv) (feOf model)
      model.factors.ndarray.rows with
  | error e => rw [hcb] at h; cases h
  | ok pr =>
    rw [hcb] at h
    cases h
    exact ⟨rfl, rfl, fun i j => rfl, fun m => rfl, rfl, rfl, rfl⟩

/-- Witness for C2 at the concrete robust fit. -/
theorem traded_fit_reorder_alpha_vcv_wald_witness :
    (TradedFactorModel.fit wModel wPinv wABW "robust" true wCfg = .ok wRes) ∧
    (wRes.alpha_vcv.rows = wModel.portfolios.ndarray.cols ∧
    wRes.alpha_vcv.cols = wModel.portfolios.ndarray.cols ∧
    (∀ i j, wRes.alpha_vcv.entry i j
      = wRes.cov.entry
          (orderFun wModel.portfolios.ndarray.cols wModel.factors.ndarray.cols i)
          (orderFun wModel.portfolios.ndarray.cols wModel.factors.ndarray.cols j)) ∧
    (∀ m, orderFun wModel.portfolios.ndarray.cols wModel.factors.ndarray.cols m
      = (m % wModel.portfolios.ndarray.cols) * (wModel.factors.ndarray.cols + 1)
        + m / wModel.portfolios.ndarray.cols) ∧
    wRes.jstat.stat
      = (matMul (matMul wRes.alphas.transpose (wPinv wRes.alpha_vcv)) wRes.alphas).entry 0 0 ∧
    wRes.jstat.df = wModel.portfolios.ndarray.cols ∧
    wRes.jstat.null = "All alphas are 0") :=
  ⟨rfl, traded_fit_reorder_alpha_vcv_wald wModel wPinv wABW "robust" true wCfg wRes rfl⟩

/-- C9: the `cov` field of the Results record is the full sandwich covariance
in the original portfolio-major parameter order (the permutation is applied
only to the copy used for `alpha_vcv`), and for all `i, j < N`,
`alpha_vcv[i, j] = cov[i*(K+1), j*(K+1)]`. -/
theorem traded_fit_cov_unpermuted_alpha_minor
    (model : TradedFactorModel) (pinv : Mat → Mat) (autoBW : Nat → Nat)
    (covType : String) (debiased : Bool) (cfg : CovConfig)
    (res : TradedFactorModelResults) (pr : Mat × Mat)
    (h : TradedFactorModel.fit model pinv autoBW covType debiased cfg = .ok res)
    (hcb : covBranch covType cfg autoBW (xeOf model pinv) (feOf model)
      model.factors.ndarray.rows = .ok pr) :
    (∀ i j, res.cov.entry i j
      = (matDivQ (matMul (matMul (xpxiOf model pinv) pr.1) (xpxiOf model pinv))
          ((model.factors.ndarray.rows : ℚ)
            - (if debiased then (1 : ℚ) else 0) * ((fcOf model).cols : ℚ))).entry i j) ∧
    res.cov.rows
      = (model.factors.ndarray.cols + 1) * model.portfolios.ndarray.cols
        + model.factors.ndarray.cols ∧
    res.cov.cols
      = (model.factors.ndarray.cols + 1) * model.portfolios.ndarray.cols
        + model.factors.ndarray.cols ∧
    (∀ i, i < model.portfolios.ndarray.cols → ∀ j, j < model.portfolios.ndarray.cols →
      res.alpha_vcv.entry i j
        = res.cov.entry (i * (model.factors.ndarray.cols + 1))
            (j * (model.factors.ndarray.cols + 1))) := by
  unfold TradedFactorModel.fit at h
  rw [hcb] at h
  cases h
  refine ⟨fun i j => rfl, rfl, rfl, fun i hi j hj => ?_⟩
  show (matDivQ _ _).entry
      (orderFun model.portfolios.ndarray.cols model.factors.ndarray.cols i)
      (orderFun model.portfolios.ndarray.cols model.factors.ndarray.cols j) = _
  have hoi : orderFun model.portfolios.ndarray.cols model.factors.ndarray.cols i
      = i * (model.factors.ndarray.cols + 1) := by
    show (i % model.portfolios.ndarray.cols) * (model.factors.ndarray.cols + 1)
        + i / model.portfolios.ndarray.cols = _
    rw [Nat.mod_eq_of_lt hi, Nat.div_eq_of_lt hi, Nat.add_zero]
  have hoj : orderFun model.portfolios.ndarray.cols model.factors.ndarray.cols j
      = j * (model.factors.ndarray.cols + 1) := by
    show (j % model.portfolios.ndarray.cols) * (model.factors.ndarray.cols + 1)
        + j / model.portfolios.ndarray.cols = _
    rw [Nat.mod_eq_of_lt hj, Nat.div_eq_of_lt hj, Nat.add_zero]
  rw [hoi, hoj]
  rfl

/-- Witness for C9 at the concrete robust fit. -/
theorem traded_fit_cov_unpermuted_alpha_minor_witness :
    (TradedFactorModel.fit wModel wPinv wABW "robust" true wCfg = .ok wRes) ∧
    (covBranch "robust" wCfg wABW (xeOf wModel wPinv) (feOf wModel)
      wModel.factors.ndarray.rows
      = .ok (matDivNat (matMul (xeOf wModel wPinv).transpose (xeOf wModel wPinv))
              wModel.factors.ndarray.rows,
            matDivNat (matMul (feOf wModel).transpose (feOf wModel))
              wModel.factors.ndarray.rows)) ∧
    (∀ i, i < wModel.portfolios.ndarray.cols → ∀ j, j < wModel.portfolios.ndarray.cols →
      wRes.alpha_vcv.entry i j
        = wRes.cov.entry (i * (wModel.factors.ndarray.cols + 1))
            (j * (wModel.factors.ndarray.cols + 1))) :=
  ⟨rfl, rfl,
    (traded_fit_cov_unpermuted_alpha_minor wModel wPinv wABW "robust" true wCfg wRes
      (matDivNat (matMul (xeOf wModel wPinv).transpose (xeOf wModel wPinv))
        wModel.factors.ndarray.rows,
       matDivNat (matMul (feOf wModel).transpose (feOf wModel))
        wModel.factors.ndarray.rows) rfl rfl).2.2.2⟩

/-- C7: the robust (no-kernel) covariance `MᵀM/T` equals the kernel covariance
estimate with bandwidth 0 for every moment matrix `M` (and any weight
function, the weights being irrelevant at lag 0); consequently fitting with
`cov_type = "robust"` and with `cov_type = "kernel"`, kernel `"bartlett"`,
bandwidth 0 yields the same `xeex` and `rp_cov`, observable as identical
`cov` and `rp_cov` fields of the Results record. -/
theorem robust_equals_kernel_bw0 :
    (∀ (M : Mat) (w : Nat → ℚ),
      covKernel M w 0 = matDivNat (matMul M.transpose M) M.rows)
    ∧ (∀ (model : TradedFactorModel) (pinv : Mat → Mat) (autoBW : Nat → Nat)
        (debiased : Bool) (cfg : CovConfig)
        (res res' : TradedFactorModelResults),
        TradedFactorModel.fit model pinv autoBW "robust" debiased cfg = .ok res →
        TradedFactorModel.fit model pinv autoBW "kernel" debiased
          ⟨some "bartlett", some 0⟩ = .ok res' →
        res.cov = res'.cov ∧ res.rp_cov = res'.rp_cov) := by
  refine ⟨covKernel_zero, ?_⟩
  intro model pinv autoBW debiased cfg res res' h hk
  have hcbR : covBranch "robust" cfg autoBW (xeOf model pinv) (feOf model)
      model.factors.ndarray.rows
      = .ok (matDivNat (matMul (xeOf model pinv).transpose (xeOf model pinv))
              model.factors.ndarray.rows,
            matDivNat (matMul (feOf model).transpose (feOf model))
              model.factors.ndarray.rows) := rfl
  have hcbK : covBranch "kernel" ⟨some "bartlett", some 0⟩ autoBW (xeOf model pinv)
      (feOf model) model.factors.ndarray.rows
      = .ok (covKernel (xeOf model pinv) (bartlettWeight 0) 0,
            covKernel (feOf model) (bartlettWeight 0) 0) := rfl
  unfold TradedFactorModel.fit at h hk
  rw [hcbR] at h
  rw [hcbK] at hk
  cases h
  cases hk
  rw [covKernel_zero (xeOf model pinv) (bartlettWeight 0),
    covKernel_zero (feOf model) (bartlettWeight 0),
    xeOf_rows model pinv, feOf_rows model]
  exact ⟨rfl, rfl⟩

/-- Witness for C7: the two concrete fits agree on `cov` and `rp_cov`. -/
theorem robust_equals_kernel_bw0_witness :
    (TradedFactorModel.fit wModel wPinv wABW "robust" true wCfg = .ok wRes) ∧
    (TradedFactorModel.fit wModel wPinv wABW "kernel" true
      ⟨some "bartlett", some 0⟩ = .ok wResK) ∧
    (wRes.cov = wResK.cov ∧ wRes.rp_cov = wResK.rp_cov) :=
  ⟨rfl, rfl, robust_equals_kernel_bw0.2 wModel wPinv wABW true wCfg wRes wResK rfl rfl⟩

/-- C8: the `rsquared` field equals `1 - residual_ss/total_ss` with
`residual_ss = sum(eps**2)`; whenever the division is well defined
(`total_ss > 0`, cf. C10) it is at most 1, with equality exactly when the
residual matrix `eps` is identically zero. -/
theorem traded_fit_rsquared_range
    (model : TradedFactorModel) (pinv : Mat → Mat) (autoBW : Nat → Nat)
    (covType : String) (debiased : Bool) (cfg : CovConfig)
    (res : TradedFactorModelResults)
    (h : TradedFactorModel.fit model pinv autoBW covType debiased cfg = .ok res)
    (hpos : 0 < res.total_ss) :
    res.rsquared ≤ 1 ∧
    (res.rsquared = 1 ↔
      ∀ t, t < (epsOf model pinv).rows → ∀ i, i < (epsOf model pinv).cols →
        (epsOf model pinv).entry t i = 0) ∧
    res.residual_ss = sumAll (matEmul (epsOf model pinv) (epsOf model pinv)) ∧
    res.rsquared = 1 - res.residual_ss / res.total_ss := by
  unfold TradedFactorModel.fit at h
  cases hcb : covBranch covType cfg autoBW (xeOf model pinv) (feOf model)
      model.factors.ndarray.rows with
  | error e => rw [hcb] at h; cases h
  | ok pr =>
    rw [hcb] at h
    cases h
    refine ⟨?_, ?_, rfl, rfl⟩
    · exact sub_le_self 1 (div_nonneg (sumAll_sq_nonneg (epsOf model pinv)) (le_of_lt hpos))
    · have h2 : (1 - sumAll (matEmul (epsOf model pinv) (epsOf model pinv))
          / sumAll (matEmul
              (matBsub model.portfolios.ndarray (mean0 model.portfolios.ndarray))
              (matBsub model.portfolios.ndarray (mean0 model.portfolios.ndarray))) = 1)
          ↔ sumAll (matEmul (epsOf model pinv) (epsOf model pinv))
          / sumAll (matEmul
              (matBsub model.portfolios.ndarray (mean0 model.portfolios.ndarray))
              (matBsub model.portfolios.ndarray (mean0 model.portfolios.ndarray))) = 0 :=
        sub_eq_self
      have hne : sumAll (matEmul
          (matBsub model.portfolios.ndarray (mean0 model.portfolios.ndarray))
          (matBsub model.portfolios.ndarray (mean0 model.portfolios.ndarray))) ≠ 0 :=
        ne_of_gt hpos
      exact h2.trans ((div_eq_zero_iff.trans (or_iff_left hne)).trans
        (sumAll_sq_eq_zero_iff (epsOf model pinv)))

/-- Witness for C8 at the concrete robust fit (where `total_ss = 2 > 0`). -/
theorem traded_fit_rsquared_range_witness :
    (TradedFactorModel.fit wModel wPinv wABW "robust" true wCfg = .ok wRes) ∧
    (0 < wRes.total_ss) ∧
    (wRes.rsquared ≤ 1 ∧
    (wRes.rsquared = 1 ↔
      ∀ t, t < (epsOf wModel wPinv).rows → ∀ i, i < (epsOf wModel wPinv).cols →
        (epsOf wModel wPinv).entry t i = 0) ∧
    wRes.residual_ss = sumAll (matEmul (epsOf wModel wPinv) (epsOf wModel wPinv)) ∧
    wRes.rsquared = 1 - wRes.residual_ss / wRes.total_ss) := by
  have h0 : wRes.total_ss = sumAll (matEmul
      (matBsub wModel.portfolios.ndarray (mean0 wModel.portfolios.ndarray))
      (matBsub wModel.portfolios.ndarray (mean0 wModel.portfolios.ndarray))) := rfl
  have hts : wRes.total_ss = 2 := by
    rw [h0]
    simp [wModel, sumAll, sumTo, matEmul, matBsub, mean0, matOfList, bdim, bidx]
    norm_num
  have hpos : 0 < wRes.total_ss := by rw [hts]; norm_num
  exact ⟨rfl, hpos,
    traded_fit_rsquared_range wModel wPinv wABW "robust" true wCfg wRes rfl hpos⟩

/-- C10: the R² computation divides by `total_ss` with no guard; the returned
`rsquared` is literally `1 - residual_ss/total_ss`, and the divisor
`total_ss` is zero exactly when every portfolio column is constant over time
(in floating point that is the division-by-zero case; in this rational
embedding the divisor is 0). -/
theorem traded_fit_total_ss_guard
    (model : TradedFactorModel) (pinv : Mat → Mat) (autoBW : Nat → Nat)
    (covType : String) (debiased : Bool) (cfg : CovConfig)
    (res : TradedFactorModelResults)
    (h : TradedFactorModel.fit model pinv autoBW covType debiased cfg = .ok res) :
    (res.rsquared = 1 - res.residual_ss / res.total_ss) ∧
    (res.total_ss = 0 ↔
      ∀ j, j < model.portfolios.ndarray.cols →
        ∀ t, t < model.portfolios.ndarray.rows →
          model.portfolios.ndarray.entry t j = model.portfolios.ndarray.entry 0 j) := by
  unfold TradedFactorModel.fit at h
  cases hcb : covBranch covType cfg autoBW (xeOf model pinv) (feOf model)
      model.factors.ndarray.rows with
  | error e => rw [hcb] at h; cases h
  | ok pr =>
    rw [hcb] at h
    cases h
    refine ⟨rfl, ?_⟩
    show sumAll (matEmul
        (matBsub model.portfolios.ndarray (mean0 model.portfolios.ndarray))
        (matBsub model.portfolios.ndarray (mean0 model.portfolios.ndarray))) = 0 ↔ _
    rw [sumAll_sq_eq_zero_iff]
    constructor
    · intro hall j hj t ht
      have h0 : 0 < model.portfolios.ndarray.rows := lt_of_le_of_lt (Nat.zero_le t) ht
      have het := hall t (by rw [bsub_mean_rows]; exact ht) j (by rw [bsub_mean_cols]; exact hj)
      have he0 := hall 0 (by rw [bsub_mean_rows]; exact h0) j (by rw [bsub_mean_cols]; exact hj)
      rw [bsub_mean_entry _ ht hj] at het
      rw [bsub_mean_entry _ h0 hj] at he0
      exact (sub_eq_zero.mp het).trans (sub_eq_zero.mp he0).symm
    · intro hall i hi j hj
      rw [bsub_mean_rows] at hi
      rw [bsub_mean_cols] at hj
      have h0 : 0 < model.portfolios.ndarray.rows := lt_of_le_of_lt (Nat.zero_le i) hi
      have hconst : ∀ t, t < model.portfolios.ndarray.rows →
          model.portfolios.ndarray.entry t j = model.portfolios.ndarray.entry 0 j :=
        hall j hj
      have hsum : sumTo model.portfolios.ndarray.rows
          (fun t => model.portfolios.ndarray.entry t j)
          = (model.portfolios.ndarray.rows : ℚ) * model.portfolios.ndarray.entry 0 j :=
        sumTo_const hconst
      have hne : ((model.portfolios.ndarray.rows : Nat) : ℚ) ≠ 0 :=
        Nat.cast_ne_zero.mpr h0.ne'
      rw [bsub_mean_entry _ hi hj, hsum, mul_div_cancel_left₀ _ hne]
      exact sub_eq_zero.mpr (hconst i hi)

/-- Witness for C10 at the concrete robust fit (`p = [[1], [3]]` is not
constant, and indeed `total_ss = 2 ≠ 0`). -/
theorem traded_fit_total_ss_guard_witness :
    (TradedFactorModel.fit wModel wPinv wABW "robust" true wCfg = .ok wRes) ∧
    ((wRes.rsquared = 1 - wRes.residual_ss / wRes.total_ss) ∧
    (wRes.total_ss = 0 ↔
      ∀ j, j < wModel.portfolios.ndarray.cols →
        ∀ t, t < wModel.portfolios.ndarray.rows →
          wModel.portfolios.ndarray.entry t j = wModel.portfolios.ndarray.entry 0 j)) :=
  ⟨rfl, traded_fit_total_ss_guard wModel wPinv wABW "robust" true wCfg wRes rfl⟩

/-- C4 counterexample: for the concrete `sigma = [[-1]]`, whose genuine
eigendecomposition (identity eigenvectors, eigenvalue `-1`, certified here by
reconstructing `sigma` from it) has a non-positive eigenvalue,
`LinearFactorModel.fit` still returns normally — no error is raised or
propagated, contradicting the claim that a non-positive eigenvalue is
propagated as an error. -/
theorem lfm_fit_nonpd_sigma_no_error_cex :
    wLinModelNeg.sigma = some sigmaNeg ∧
    (wEighNeg sigmaNeg).1 0 = -1 ∧
    (matMul (matMul (wEighNeg sigmaNeg).2
        (diagMat sigmaNeg.rows (fun i => (wEighNeg sigmaNeg).1 i)))
      (wEighNeg sigmaNeg).2.transpose).entry 0 0 = sigmaNeg.entry 0 0 ∧
    exceptOk (LinearFactorModel.fit wLinModelNeg wLstsq wEighNeg wInvSqrt
      "robust" true wCfg) = true := by
  refine ⟨rfl, rfl, ?_, rfl⟩
  simp [matMul, sumTo, matEye, diagMat, Mat.transpose, wEighNeg, sigmaNeg, matOfList]

/-- C4 (amended): `LinearFactorModel.fit` raises no error for any `sigma`
whatsoever — the eigenvalues of a supplied `sigma` are fed through
`1.0/np.sqrt` with no positivity check, no flooring and no clamping (the
weighting matrix is exactly `vecs @ diag(invSqrt(vals)) @ vecs.T` as built
from the eigendecomposition); when `sigma` is absent the weighting matrix is
exactly the `N × N` identity. -/
theorem lfm_fit_weighting_amended :
    (∀ (model : LinearFactorModel) (lstsq : Mat → Mat → Mat)
       (eigh : Mat → ((Nat → ℚ) × Mat)) (invSqrt : ℚ → ℚ)
       (covType : String) (debiased : Bool) (cfg : CovConfig),
      exceptOk (LinearFactorModel.fit model lstsq eigh invSqrt covType debiased cfg)
        = true)
    ∧ (∀ (eigh : Mat → ((Nat → ℚ) × Mat)) (invSqrt : ℚ → ℚ) (n : Nat),
        sigmaM12Of eigh invSqrt none n = matEye n)
    ∧ (∀ (eigh : Mat → ((Nat → ℚ) × Mat)) (invSqrt : ℚ → ℚ) (s : Mat) (n : Nat),
        sigmaM12Of eigh invSqrt (some s) n
          = matMul
              (matMul (eigh s).2 (diagMat s.rows (fun i => invSqrt ((eigh s).1 i))))
              (eigh s).2.transpose) :=
  ⟨fun _ _ _ _ _ _ _ => rfl, fun _ _ _ => rfl, fun _ _ _ _ => rfl⟩

/-- C1 (code evaluated at the failing input): `LinearFactorModel.fit`, run on
the concrete valid input `portfolios = [[1], [3]]`, `factors = [[2], [4]]`
with an exact least-squares solver, returns the bare 1×1/1×N pair
`(lam, alpha) = ([[2]], [[0]])` of line 190 — its return type is a pair of
matrices, not a Results record with `params`, `cov`, `betas`, `alpha_vcv`,
`rp_cov`, a Wald statistic, `rsquared` or name labels. -/
theorem lfm_fit_returns_bare_pair_eval :
    exceptOk (LinearFactorModel.fit wLinModel wLstsq wEigh wInvSqrt "robust" true wCfg)
      = true ∧
    (exceptGetD (LinearFactorModel.fit wLinModel wLstsq wEigh wInvSqrt "robust" true wCfg)
      (matZero 0 0, matZero 0 0)).1.rows = 1 ∧
    (exceptGetD (LinearFactorModel.fit wLinModel wLstsq wEigh wInvSqrt "robust" true wCfg)
      (matZero 0 0, matZero 0 0)).1.cols = 1 ∧
    (exceptGetD (LinearFactorModel.fit wLinModel wLstsq wEigh wInvSqrt "robust" true wCfg)
      (matZero 0 0, matZero 0 0)).1.entry 0 0 = 2 ∧
    (exceptGetD (LinearFactorModel.fit wLinModel wLstsq wEigh wInvSqrt "robust" true wCfg)
      (matZero 0 0, matZero 0 0)).2.rows = 1 ∧
    (exceptGetD (LinearFactorModel.fit wLinModel wLstsq wEigh wInvSqrt "robust" true wCfg)
      (matZero 0 0, matZero 0 0)).2.cols = 1 ∧
    (exceptGetD (LinearFactorModel.fit wLinModel wLstsq wEigh wInvSqrt "robust" true wCfg)
      (matZero 0 0, matZero 0 0)).2.entry 0 0 = 0 := by
  refine ⟨rfl, rfl, rfl, ?_, rfl, rfl, ?_⟩
  · simp [LinearFactorModel.fit, exceptGetD, wLinModel, wLstsq, wEigh, wInvSqrt,
      sigmaM12Of, matMul, sumTo, matHcat, matOnes, matOfList, mean0, matBsub,
      rowSlice, Mat.transpose, matEye, diagMat, bdim, bidx, wCfg]
    norm_num
  · simp [LinearFactorModel.fit, exceptGetD, wLinModel, wLstsq, wEigh, wInvSqrt,
      sigmaM12Of, matMul, sumTo, matHcat, matOnes, matOfList, mean0, matBsub,
      rowSlice, Mat.transpose, matEye, diagMat, bdim, bidx, wCfg]
    norm_num

end AssetPricing
